import Mathlib

/-!
Verification of the entity/native-handle synchronization layer of
`bevy_liquidfun` (a Bevy wrapper around the LiquidFun/Box2D physics engine).

The Rust source is shallowly embedded: entities are natural numbers, native
pointers are opaque natural-number handles, `HashMap` becomes an association
list with replace-on-insert semantics, `HashSet` becomes `Finset`, `f32`
arithmetic of the fixed-timestep scheduler is modelled over `ℚ`, and Rust
panics (`unwrap`, explicit panics) become `Option.none` results.
-/

namespace BevyLiquidfun

/-- Entities are opaque stable identifiers (`bevy::Entity`), modelled as `ℕ`. -/
abbrev Entity := ℕ

/-! ### Association-list model of `std::collections::HashMap` -/

/-- `HashMap::get`: the value stored for key `k`, if any. -/
def mapLookup {κ α : Type} [DecidableEq κ] : List (κ × α) → κ → Option α
  | [], _ => none
  | (k', v) :: rest, k => if k' = k then some v else mapLookup rest k

/-- `HashMap::insert`: stores `v` under `k`, silently replacing any existing
association for `k` (the replaced value is dropped). -/
def mapInsert {κ α : Type} [DecidableEq κ] (m : List (κ × α)) (k : κ) (v : α) :
    List (κ × α) :=
  (k, v) :: m.filter (fun p => p.1 ≠ k)

/-- `HashMap::remove`: drops the association for `k`, if present. -/
def mapRemove {κ α : Type} [DecidableEq κ] (m : List (κ × α)) (k : κ) :
    List (κ × α) :=
  m.filter (fun p => p.1 ≠ k)

theorem mapLookup_mapInsert_self {κ α : Type} [DecidableEq κ]
    (m : List (κ × α)) (k : κ) (v : α) : mapLookup (mapInsert m k v) k = some v := by
  simp [mapLookup, mapInsert]

theorem mapLookup_mapRemove_self {κ α : Type} [DecidableEq κ]
    (m : List (κ × α)) (k : κ) : mapLookup (mapRemove m k) k = none := by
  induction m with
  | nil => simp [mapLookup, mapRemove]
  | cons p rest ih =>
      by_cases hp : p.1 = k
      · simpa [mapRemove, hp] using ih
      · simpa [mapRemove, mapLookup, hp] using ih

theorem mapLookup_mapRemove_ne {κ α : Type} [DecidableEq κ]
    (m : List (κ × α)) (k k' : κ) (h : k ≠ k') :
    mapLookup (mapRemove m k) k' = mapLookup m k' := by
  induction m with
  | nil => simp [mapLookup, mapRemove]
  | cons p rest ih =>
      obtain ⟨a, b⟩ := p
      by_cases hp : a = k
      · have hrem : mapRemove ((a, b) :: rest) k = mapRemove rest k := by
          simp [mapRemove, List.filter_cons, hp]
        have hak' : ¬ a = k' := by rw [hp]; exact h
        rw [hrem, ih, mapLookup, if_neg hak']
      · have hrem : mapRemove ((a, b) :: rest) k = (a, b) :: mapRemove rest k := by
          simp [mapRemove, List.filter_cons, hp]
        rw [hrem, mapLookup, mapLookup]
        by_cases hp' : a = k'
        · rw [if_pos hp', if_pos hp']
        · rw [if_neg hp', if_neg hp', ih]

theorem mapLookup_mapInsert_ne {κ α : Type} [DecidableEq κ]
    (m : List (κ × α)) (k k' : κ) (v : α) (h : k ≠ k') :
    mapLookup (mapInsert m k v) k' = mapLookup m k' := by
  show mapLookup ((k, v) :: m.filter (fun p => p.1 ≠ k)) k' = mapLookup m k'
  rw [mapLookup, if_neg h]
  exact mapLookup_mapRemove_ne m k k' h

theorem mapLookup_filter {κ α : Type} [DecidableEq κ]
    (q : κ × α → Bool) (m : List (κ × α)) (k : κ)
    (hk : ∀ v, q (k, v) = false) : mapLookup (m.filter q) k = none := by
  induction m with
  | nil => simp [mapLookup]
  | cons p rest ih =>
      by_cases hp : p.1 = k
      · have hq : q p = false := by
          have h2 : q (p.1, p.2) = false := by rw [hp]; exact hk p.2
          simpa using h2
        simp [List.filter_cons, hq, ih]
      · by_cases hq : q p
        · simp [List.filter_cons, hq, mapLookup, hp, ih]
        · simp [List.filter_cons, hq, ih]

/-! ### The handle registry (`b2WorldImpl`, src/dynamics/world.rs) -/

/-- `JointPtr` (src/dynamics/joints/joint.rs): a native joint pointer tagged by
joint kind.  The pointer payload is an opaque handle. -/
inductive JointPtr : Type
  | Revolute (ptr : ℕ)
  | Prismatic (ptr : ℕ)
  | Distance (ptr : ℕ)
  | Weld (ptr : ℕ)
  | Motor (ptr : ℕ)
deriving DecidableEq

/-- `b2JointType` (src/dynamics/joints/joint.rs). -/
inductive b2JointType : Type
  | Revolute
  | Prismatic
  | Distance
  | Weld
  | Motor
deriving DecidableEq

/-- `b2Joint` component (src/dynamics/joints/joint.rs). -/
structure b2Joint : Type where
  joint_type : b2JointType
  body_a : Entity
  body_b : Entity
  collide_connected : Bool
deriving DecidableEq

/-- `b2WorldImpl` (src/dynamics/world.rs): the handle registry.  Native
pointers (`*mut ffi::b2Body` etc.) are opaque `ℕ` handles; the `HashMap`s
become association lists and the `HashSet` of fixtures a `Finset`. -/
structure b2WorldImpl : Type where
  body_ptrs : List (Entity × ℕ)
  fixture_ptrs : List (Entity × ℕ)
  joint_ptrs : List (Entity × JointPtr)
  body_to_fixtures : List (Entity × Finset Entity)
  fixture_to_body : List (Entity × Entity)
  gravity : ℚ × ℚ
deriving DecidableEq

/-- `b2WorldImpl::new` (src/dynamics/world.rs:131): all registry maps start
empty. -/
def b2WorldImpl.new (gravity : ℚ × ℚ) : b2WorldImpl :=
  { body_ptrs := []
    fixture_ptrs := []
    joint_ptrs := []
    body_to_fixtures := []
    fixture_to_body := []
    gravity := gravity }

/-- `b2WorldImpl::create_body` (src/dynamics/world.rs:190): builds the native
body (whose resulting pointer is the opaque handle `ffi_body`) and records it
with `HashMap::insert` — an existing association for `entity` is silently
replaced. -/
def b2WorldImpl.create_body (w : b2WorldImpl) (entity : Entity) (ffi_body : ℕ) :
    b2WorldImpl :=
  { w with body_ptrs := mapInsert w.body_ptrs entity ffi_body }

/-- `b2WorldImpl::register_joint` (src/dynamics/world.rs:273): records the
joint pointer with `HashMap::insert` (the two body arguments are unused in the
source). -/
def b2WorldImpl.register_joint (w : b2WorldImpl) (joint_entity : Entity)
    (_joint : b2Joint) (ptr : JointPtr) (_body_a _body_b : Entity) : b2WorldImpl :=
  { w with joint_ptrs := mapInsert w.joint_ptrs joint_entity ptr }

/-- `b2WorldImpl::create_fixture` (src/dynamics/world.rs:244): unwraps the
body's native pointer (`none` models the panic when the body has no handle),
creates the native fixture (opaque handle `ffi_fixture`), and records it in
`fixture_ptrs`, in the body→fixtures adjacency set, and in `fixture_to_body`. -/
def b2WorldImpl.create_fixture (w : b2WorldImpl) (fixture_entity body_entity : Entity)
    (ffi_fixture : ℕ) : Option b2WorldImpl :=
  match mapLookup w.body_ptrs body_entity with
  | none => none
  | some _ =>
      some { w with
        fixture_ptrs := mapInsert w.fixture_ptrs fixture_entity ffi_fixture
        body_to_fixtures := mapInsert w.body_to_fixtures body_entity
          (insert fixture_entity ((mapLookup w.body_to_fixtures body_entity).getD ∅))
        fixture_to_body := mapInsert w.fixture_to_body fixture_entity body_entity }

/-- `b2WorldImpl::destroy_body_for_entity` (src/dynamics/world.rs:203): no-op
when no handle is registered; otherwise removes the body handle, drops the
body's adjacency set and removes each of its fixtures from `fixture_to_body`
and `fixture_ptrs` (the per-fixture removals are order-independent, so they are
modelled by a single filter). -/
def b2WorldImpl.destroy_body_for_entity (w : b2WorldImpl) (entity : Entity) :
    b2WorldImpl :=
  match mapLookup w.body_ptrs entity with
  | none => w
  | some _ =>
      let fixtures := (mapLookup w.body_to_fixtures entity).getD ∅
      { w with
        body_ptrs := mapRemove w.body_ptrs entity
        body_to_fixtures := mapRemove w.body_to_fixtures entity
        fixture_to_body := w.fixture_to_body.filter (fun p => p.1 ∉ fixtures)
        fixture_ptrs := w.fixture_ptrs.filter (fun p => p.1 ∉ fixtures) }

/-- `b2WorldImpl::destroy_fixture_for_entity` (src/dynamics/world.rs:281):
early-returns when the fixture handle or its body association is absent (the
fixture handle is removed first, matching the source's two `remove` calls);
unwraps the body's adjacency set and native pointer (`none` models those
panics; the source's partial mutations before a panic are unobservable since
the process aborts). -/
def b2WorldImpl.destroy_fixture_for_entity (w : b2WorldImpl) (entity : Entity) :
    Option b2WorldImpl :=
  match mapLookup w.fixture_ptrs entity with
  | none => some w
  | some _ =>
      match mapLookup w.fixture_to_body entity with
      | none => some { w with fixture_ptrs := mapRemove w.fixture_ptrs entity }
      | some body_entity =>
          match mapLookup w.body_to_fixtures body_entity with
          | none => none
          | some s =>
              match mapLookup w.body_ptrs body_entity with
              | none => none
              | some _ =>
                  some { w with
                    fixture_ptrs := mapRemove w.fixture_ptrs entity
                    fixture_to_body := mapRemove w.fixture_to_body entity
                    body_to_fixtures :=
                      mapInsert w.body_to_fixtures body_entity (s.erase entity) }

/-- `b2WorldImpl::destroy_joint` (src/dynamics/world.rs:220): removes the joint
pointer (warns and returns when absent, leaving the registry unchanged, which
coincides with removing a missing key). -/
def b2WorldImpl.destroy_joint (w : b2WorldImpl) (entity : Entity) : b2WorldImpl :=
  { w with joint_ptrs := mapRemove w.joint_ptrs entity }

/-! ### Fixed-timestep scheduler (src/schedule.rs) -/

/-- `b2WorldSettings` (src/dynamics/world.rs:34), with the two time quantities
over `ℚ` (the source uses `f32`; the scheduler is modelled in exact rational
arithmetic). -/
structure b2WorldSettings : Type where
  time_step : ℚ
  max_frame_delta : ℚ
  velocity_iterations : ℤ
  position_iterations : ℤ
  particle_iterations : ℤ
deriving DecidableEq

/-- `b2WorldSettings::default` (src/dynamics/world.rs:42). -/
def b2WorldSettings.standard : b2WorldSettings :=
  { time_step := 1 / 60
    max_frame_delta := 1 / 30
    velocity_iterations := 8
    position_iterations := 3
    particle_iterations := 1 }

/-- The `while physics_time_accumulator.0 >= wanted_time_step` loop of
`run_liquidfun_schedule` (src/schedule.rs:91): returns the number of pipeline
passes run and the leftover accumulator.  The `0 < time_step` conjunct in the
guard only encodes termination; for a positive step it coincides with the
source's loop condition. -/
def stepLoop (time_step : ℚ) (accumulator : ℚ) : ℕ × ℚ :=
  if h : 0 < time_step ∧ time_step ≤ accumulator then
    let rest := stepLoop time_step (accumulator - time_step)
    (rest.1 + 1, rest.2)
  else
    (0, accumulator)
termination_by (Int.floor (accumulator / time_step)).toNat
decreasing_by
  have hts : (0 : ℚ) < time_step := h.1
  have hdiv : (accumulator - time_step) / time_step = accumulator / time_step - 1 := by
    field_simp
  have hfl : Int.floor ((accumulator - time_step) / time_step) =
      Int.floor (accumulator / time_step) - 1 := by
    rw [hdiv]
    exact_mod_cast Int.floor_sub_int (accumulator / time_step) 1
  have hone : (1 : ℚ) ≤ accumulator / time_step := by
    rw [le_div_iff₀ hts]
    simpa using h.2
  have hge : (1 : ℤ) ≤ Int.floor (accumulator / time_step) := by
    exact_mod_cast Int.le_floor.mpr (by exact_mod_cast hone)
  omega

/-- `run_liquidfun_schedule` (src/schedule.rs:79): clamps the frame delta to
`max_frame_delta`, adds it to the accumulator, and runs the physics schedule
while a whole `time_step` is available.  Returns the number of passes run and
the leftover accumulator. -/
def run_liquidfun_schedule (settings : b2WorldSettings)
    (accumulator frame_delta : ℚ) : ℕ × ℚ :=
  let real_delta := min frame_delta settings.max_frame_delta
  stepLoop settings.time_step (accumulator + real_delta)

/-- Characterization of `stepLoop`: the leftover accumulator is below the step
size, stays nonnegative when the input is, and the passes run account exactly
for the consumed time. -/
theorem stepLoop_spec (time_step accumulator : ℚ) :
    0 < time_step →
      (stepLoop time_step accumulator).2 < time_step ∧
      (0 ≤ accumulator → 0 ≤ (stepLoop time_step accumulator).2) ∧
      (stepLoop time_step accumulator).2 +
        (stepLoop time_step accumulator).1 * time_step = accumulator := by
  induction accumulator using stepLoop.induct time_step with
  | case1 accumulator h ih =>
      intro hts
      rw [stepLoop, dif_pos h]
      obtain ⟨ih1, ih2, ih3⟩ := ih hts
      refine ⟨ih1, fun _ => ih2 (by linarith [h.2]), ?_⟩
      push_cast
      linarith [ih3]
  | case2 accumulator h =>
      intro hts
      rw [stepLoop, dif_neg h]
      have hlt : accumulator < time_step := by
        by_contra hc
        exact h ⟨hts, le_of_not_lt hc⟩
      exact ⟨hlt, fun h0 => h0, by push_cast; ring⟩

/-- `stepLoop` is determined by the Euclidean decomposition of the accumulator:
if `n` whole steps fit (and `n + 1` do not), exactly `n` passes run. -/
theorem stepLoop_eq (time_step accumulator : ℚ) (n : ℕ) (hts : 0 < time_step)
    (hlo : (n : ℚ) * time_step ≤ accumulator)
    (hhi : accumulator < ((n : ℚ) + 1) * time_step) :
    stepLoop time_step accumulator = (n, accumulator - n * time_step) := by
  obtain ⟨h1, h2, h3⟩ := stepLoop_spec time_step accumulator hts
  have h0 : 0 ≤ (stepLoop time_step accumulator).2 := by
    refine h2 ?_
    have : (0 : ℚ) ≤ (n : ℚ) * time_step := by positivity
    linarith
  set m := (stepLoop time_step accumulator).1 with hm
  set r := (stepLoop time_step accumulator).2 with hr
  have hmn : m = n := by
    by_contra hne
    rcases Nat.lt_or_ge m n with hlt | hge
    · have hm1 : (m : ℚ) + 1 ≤ (n : ℚ) := by exact_mod_cast hlt
      have : accumulator < ((m : ℚ) + 1) * time_step := by nlinarith
      nlinarith
    · have hgt : n < m := lt_of_le_of_ne hge (fun e => hne e.symm)
      have hm1 : (n : ℚ) + 1 ≤ (m : ℚ) := by exact_mod_cast hgt
      nlinarith
  have : r = accumulator - n * time_step := by
    rw [← hmn]; linarith
  rw [Prod.ext_iff]
  exact ⟨hmn, this⟩

/-! ### Claim C1: duplicate handle registration -/

/-- C1 (counterexample): registering a native body handle for an entity that
already has an association does not fail — `HashMap::insert` silently replaces
the old handle.  Registering entity 1 with handle 10 and then handle 20 leaves
the registry mapping entity 1 to 20; the original association is gone and no
error occurred. -/
theorem c1_duplicate_registration_replaces :
    mapLookup (((b2WorldImpl.new (0, 0)).create_body 1 10).create_body 1 20).body_ptrs 1
        = some 20 ∧
    mapLookup (((b2WorldImpl.new (0, 0)).create_body 1 10).create_body 1 20).body_ptrs 1
        ≠ some 10 := by
  constructor
  · rfl
  · decide

/-- C1 (amended): registering a native handle (body, joint, or fixture) always
succeeds and maps the entity to the newly created handle, silently replacing
any existing association; no failure path exists for duplicates. -/
theorem c1_registration_always_succeeds :
    (∀ (w : b2WorldImpl) (e : Entity) (ffi_body : ℕ),
        mapLookup (w.create_body e ffi_body).body_ptrs e = some ffi_body) ∧
    (∀ (w : b2WorldImpl) (je : Entity) (j : b2Joint) (p : JointPtr) (a b : Entity),
        mapLookup (w.register_joint je j p a b).joint_ptrs je = some p) ∧
    (∀ (w w' : b2WorldImpl) (f b : Entity) (ffi_fixture : ℕ),
        w.create_fixture f b ffi_fixture = some w' →
        mapLookup w'.fixture_ptrs f = some ffi_fixture) := by
  refine ⟨fun w e hb => mapLookup_mapInsert_self _ _ _,
          fun w je j p a b => mapLookup_mapInsert_self _ _ _,
          fun w w' f b hf hcr => ?_⟩
  unfold b2WorldImpl.create_fixture at hcr
  cases hlk : mapLookup w.body_ptrs b with
  | none => rw [hlk] at hcr; cases hcr
  | some ptr =>
      rw [hlk] at hcr
      cases hcr
      exact mapLookup_mapInsert_self _ _ _

/-- C1 witness: concrete instantiation of the fixture branch of
`c1_registration_always_succeeds`. -/
theorem c1_registration_always_succeeds_witness :
    ((b2WorldImpl.new (0, 0)).create_body 1 10).create_fixture 5 1 100 =
      some { body_ptrs := [(1, 10)]
             fixture_ptrs := [(5, 100)]
             joint_ptrs := []
             body_to_fixtures := [(1, insert 5 ∅)]
             fixture_to_body := [(5, 1)]
             gravity := (0, 0) } ∧
    mapLookup ({ body_ptrs := [(1, 10)]
                 fixture_ptrs := [(5, 100)]
                 joint_ptrs := []
                 body_to_fixtures := [(1, insert 5 ∅)]
                 fixture_to_body := [(5, 1)]
                 gravity := (0, 0) } : b2WorldImpl).fixture_ptrs 5 = some 100 :=
  ⟨by rfl, c1_registration_always_succeeds.2.2
    ((b2WorldImpl.new (0, 0)).create_body 1 10) _ 5 1 100 (by rfl)⟩

/-! ### Claims C3 and C8: the fixed-timestep scheduler -/

/-- C3 (counterexample): with the default settings (`time_step = 1/60`,
`max_frame_delta = 1/30`) and a zero starting accumulator, a frame delta of
`3/60` is clamped to `1/30`, so exactly 2 pipeline passes run — not the 3 the
claim states. -/
theorem c3_three_sixtieths_runs_two_passes :
    (run_liquidfun_schedule b2WorldSettings.standard 0 (3 / 60)).1 = 2 ∧
    (run_liquidfun_schedule b2WorldSettings.standard 0 (3 / 60)).1 ≠ 3 := by
  have h : run_liquidfun_schedule b2WorldSettings.standard 0 (3 / 60) = (2, 0) := by
    show stepLoop b2WorldSettings.standard.time_step
        (0 + min (3 / 60) b2WorldSettings.standard.max_frame_delta) = (2, 0)
    have harg : (0 : ℚ) + min ((3 : ℚ) / 60) b2WorldSettings.standard.max_frame_delta
        = 1 / 30 := by
      norm_num [b2WorldSettings.standard]
    rw [harg]
    have := stepLoop_eq (b2WorldSettings.standard.time_step) (1 / 30) 2
      (by norm_num [b2WorldSettings.standard])
      (by norm_num [b2WorldSettings.standard])
      (by norm_num [b2WorldSettings.standard])
    rw [this]
    norm_num [b2WorldSettings.standard]
  rw [h]
  exact ⟨rfl, by decide⟩

/-- C3 (amended): with the default settings, the frame delta is first clamped
to `max_frame_delta = 1/30`.  A frame whose delta is `3/60` therefore runs
exactly 2 pipeline passes and leaves the accumulator at exactly 0, and a frame
whose delta is `0.5/60` runs 0 passes and leaves the accumulator at `0.5/60`
(exact rational model of the `f32` arithmetic). -/
theorem c3_schedule_with_default_settings :
    run_liquidfun_schedule b2WorldSettings.standard 0 (3 / 60) = (2, 0) ∧
    run_liquidfun_schedule b2WorldSettings.standard 0 (0.5 / 60) = (0, 0.5 / 60) := by
  constructor
  · show stepLoop b2WorldSettings.standard.time_step
        (0 + min (3 / 60) b2WorldSettings.standard.max_frame_delta) = (2, 0)
    have harg : (0 : ℚ) + min ((3 : ℚ) / 60) b2WorldSettings.standard.max_frame_delta
        = 1 / 30 := by
      norm_num [b2WorldSettings.standard]
    rw [harg]
    have := stepLoop_eq (b2WorldSettings.standard.time_step) (1 / 30) 2
      (by norm_num [b2WorldSettings.standard])
      (by norm_num [b2WorldSettings.standard])
      (by norm_num [b2WorldSettings.standard])
    rw [this]
    norm_num [b2WorldSettings.standard]
  · show stepLoop b2WorldSettings.standard.time_step
        (0 + min (0.5 / 60) b2WorldSettings.standard.max_frame_delta) = (0, 0.5 / 60)
    have harg : (0 : ℚ) + min ((0.5 : ℚ) / 60) b2WorldSettings.standard.max_frame_delta
        = 0.5 / 60 := by
      norm_num [b2WorldSettings.standard]
    rw [harg]
    have := stepLoop_eq (b2WorldSettings.standard.time_step) (0.5 / 60) 0
      (by norm_num [b2WorldSettings.standard])
      (by norm_num [b2WorldSettings.standard])
      (by norm_num [b2WorldSettings.standard])
    rw [this]
    norm_num [b2WorldSettings.standard]

/-- C8: for a positive fixed step, a nonnegative accumulator on entry and a
nonnegative (clamped) frame delta, the scheduler leaves the accumulator in
`[0, time_step)`, and the passes run account for exactly the time consumed
(each pass subtracts one `time_step`). -/
theorem c8_accumulator_invariant (settings : b2WorldSettings)
    (accumulator frame_delta : ℚ)
    (hts : 0 < settings.time_step) (hacc : 0 ≤ accumulator)
    (hdelta : 0 ≤ frame_delta) (hmax : 0 ≤ settings.max_frame_delta) :
    0 ≤ (run_liquidfun_schedule settings accumulator frame_delta).2 ∧
    (run_liquidfun_schedule settings accumulator frame_delta).2 < settings.time_step ∧
    (run_liquidfun_schedule settings accumulator frame_delta).2 +
      (run_liquidfun_schedule settings accumulator frame_delta).1 * settings.time_step =
      accumulator + min frame_delta settings.max_frame_delta := by
  have hmin : 0 ≤ min frame_delta settings.max_frame_delta := le_min hdelta hmax
  have hspec := stepLoop_spec settings.time_step
    (accumulator + min frame_delta settings.max_frame_delta) hts
  exact ⟨hspec.2.1 (by linarith), hspec.1, hspec.2.2⟩

/-- C8 witness: the invariant instantiated at the default settings, a zero
accumulator and a frame delta of `1/100`. -/
theorem c8_accumulator_invariant_witness :
    (0 < b2WorldSettings.standard.time_step ∧ (0 : ℚ) ≤ 0 ∧ (0 : ℚ) ≤ 1 / 100 ∧
      0 ≤ b2WorldSettings.standard.max_frame_delta) ∧
    (0 ≤ (run_liquidfun_schedule b2WorldSettings.standard 0 (1 / 100)).2 ∧
      (run_liquidfun_schedule b2WorldSettings.standard 0 (1 / 100)).2 <
        b2WorldSettings.standard.time_step ∧
      (run_liquidfun_schedule b2WorldSettings.standard 0 (1 / 100)).2 +
        (run_liquidfun_schedule b2WorldSettings.standard 0 (1 / 100)).1 *
          b2WorldSettings.standard.time_step =
        0 + min (1 / 100) b2WorldSettings.standard.max_frame_delta) :=
  ⟨⟨by norm_num [b2WorldSettings.standard], by norm_num, by norm_num,
      by norm_num [b2WorldSettings.standard]⟩,
    c8_accumulator_invariant b2WorldSettings.standard 0 (1 / 100)
      (by norm_num [b2WorldSettings.standard]) (by norm_num) (by norm_num)
      (by norm_num [b2WorldSettings.standard])⟩

/-! ### Claim C4: removing a body cascades to its fixtures -/

/-- Lookup in a filter whose predicate only inspects the key. -/
theorem mapLookup_filterKey {κ α : Type} [DecidableEq κ]
    (qk : κ → Bool) (m : List (κ × α)) (k : κ) :
    mapLookup (m.filter (fun p => qk p.1)) k =
      if qk k then mapLookup m k else none := by
  induction m with
  | nil => by_cases hq : qk k <;> simp [mapLookup, hq]
  | cons p rest ih =>
      obtain ⟨a, b⟩ := p
      by_cases hak : a = k
      · subst hak
        by_cases ha : qk a <;> simp [List.filter_cons, mapLookup, ha, ih]
      · by_cases ha : qk a <;> simp [List.filter_cons, mapLookup, ha, hak, ih]

/-- The slice of the Bevy ECS world that `destroy_removed_bodies` touches: the
set of live entities (for `Commands::get_entity` / `despawn_recursive`) and the
physics-world registry. -/
structure WorldState : Type where
  alive : Finset Entity
  world : b2WorldImpl

/-- One iteration of the `removed.read()` loop of `destroy_removed_bodies`
(src/plugins.rs:315): every fixture entity attached to the removed body is
despawned unless it is the body's own entity (co-located data, destroyed once
with the body, not twice); then the native body is destroyed, which also
deregisters all of its fixtures. -/
def destroy_removed_body (s : WorldState) (entity : Entity) : WorldState :=
  let fixture_entities := (mapLookup s.world.body_to_fixtures entity).getD ∅
  -- the despawn loop erases every attached fixture entity except the body's
  -- own entity; the erasures commute, so the loop is a set difference
  { alive := s.alive \ fixture_entities.erase entity
    world := s.world.destroy_body_for_entity entity }

/-- C4: if the removed body entity had a registered native handle then after
the destroy pass (i) the registry lookup for the body returns none, (ii) every
attached fixture entity other than the body's own entity has been despawned,
(iii) every attached fixture's native handle is deregistered, and (iv) a
fixture co-located on the body's entity is not despawned (it is cleaned up once
with the body, not destroyed a second time). -/
theorem c4_body_removal_cascades (s : WorldState) (entity : Entity)
    (hreg : (mapLookup s.world.body_ptrs entity).isSome = true) :
    mapLookup ((destroy_removed_body s entity).world).body_ptrs entity = none ∧
    (∀ f ∈ (mapLookup s.world.body_to_fixtures entity).getD ∅,
        f ≠ entity → f ∉ (destroy_removed_body s entity).alive) ∧
    (∀ f ∈ (mapLookup s.world.body_to_fixtures entity).getD ∅,
        mapLookup ((destroy_removed_body s entity).world).fixture_ptrs f = none) ∧
    ((entity ∈ (destroy_removed_body s entity).alive) ↔ entity ∈ s.alive) := by
  obtain ⟨ptr, hptr⟩ := Option.isSome_iff_exists.mp hreg
  have hworld : (destroy_removed_body s entity).world =
      s.world.destroy_body_for_entity entity := rfl
  have hdestroy : s.world.destroy_body_for_entity entity =
      { s.world with
        body_ptrs := mapRemove s.world.body_ptrs entity
        body_to_fixtures := mapRemove s.world.body_to_fixtures entity
        fixture_to_body := s.world.fixture_to_body.filter
          (fun p => p.1 ∉ (mapLookup s.world.body_to_fixtures entity).getD ∅)
        fixture_ptrs := s.world.fixture_ptrs.filter
          (fun p => p.1 ∉ (mapLookup s.world.body_to_fixtures entity).getD ∅) } := by
    unfold b2WorldImpl.destroy_body_for_entity
    rw [hptr]
  refine ⟨?_, ?_, ?_, ?_⟩
  · rw [hworld, hdestroy]
    exact mapLookup_mapRemove_self _ _
  · intro f hf hne
    have : (destroy_removed_body s entity).alive =
        s.alive \ ((mapLookup s.world.body_to_fixtures entity).getD ∅).erase entity :=
      rfl
    rw [this, Finset.mem_sdiff]
    rintro ⟨-, h⟩
    exact h (Finset.mem_erase.mpr ⟨hne, hf⟩)
  · intro f hf
    rw [hworld, hdestroy]
    show mapLookup (s.world.fixture_ptrs.filter
      (fun p => decide (p.1 ∉ (mapLookup s.world.body_to_fixtures entity).getD ∅))) f
        = none
    rw [mapLookup_filterKey (fun a =>
      decide (a ∉ (mapLookup s.world.body_to_fixtures entity).getD ∅))]
    rw [if_neg]
    simpa using hf
  · have : (destroy_removed_body s entity).alive =
        s.alive \ ((mapLookup s.world.body_to_fixtures entity).getD ∅).erase entity :=
      rfl
    rw [this, Finset.mem_sdiff]
    simp

/-- A concrete world for the C4 witness: body entity 1 with native handle 10,
a separate fixture entity 5, and a co-located fixture on entity 1 itself. -/
def c4ExampleState : WorldState :=
  { alive := {1, 5, 7}
    world :=
      { body_ptrs := [(1, 10)]
        fixture_ptrs := [(5, 100), (1, 101)]
        joint_ptrs := []
        body_to_fixtures := [(1, insert 5 (insert 1 ∅))]
        fixture_to_body := [(5, 1), (1, 1)]
        gravity := (0, 0) } }

/-- C4 witness: `c4_body_removal_cascades` instantiated on `c4ExampleState`
with removed body entity 1. -/
theorem c4_body_removal_cascades_witness :
    (mapLookup c4ExampleState.world.body_ptrs 1).isSome = true ∧
    (mapLookup ((destroy_removed_body c4ExampleState 1).world).body_ptrs 1 = none ∧
    (∀ f ∈ (mapLookup c4ExampleState.world.body_to_fixtures 1).getD ∅,
        f ≠ 1 → f ∉ (destroy_removed_body c4ExampleState 1).alive) ∧
    (∀ f ∈ (mapLookup c4ExampleState.world.body_to_fixtures 1).getD ∅,
        mapLookup ((destroy_removed_body c4ExampleState 1).world).fixture_ptrs f = none) ∧
    ((1 ∈ (destroy_removed_body c4ExampleState 1).alive) ↔ 1 ∈ c4ExampleState.alive)) :=
  ⟨by decide, c4_body_removal_cascades c4ExampleState 1 (by decide)⟩

/-! ### Claim C9: the registry's secondary adjacency structures agree -/

/-- The C9 coherence property: `fixture_to_body` and the `body_to_fixtures`
adjacency sets are mutually consistent, and every registered fixture handle has
a body association. -/
def RegistryInv (w : b2WorldImpl) : Prop :=
  (∀ f b, mapLookup w.fixture_to_body f = some b ↔
      f ∈ (mapLookup w.body_to_fixtures b).getD ∅) ∧
  (∀ f, (mapLookup w.fixture_ptrs f).isSome = true →
      (mapLookup w.fixture_to_body f).isSome = true)

/-- The registry operations quantified over by C9. -/
inductive RegistryOp : Type
  | createBody (entity : Entity) (ffi_body : ℕ)
  | createFixture (fixture_entity body_entity : Entity) (ffi_fixture : ℕ)
  | destroyFixture (entity : Entity)
  | destroyBody (entity : Entity)

/-- Dispatch of one registry operation (panics become `none`). -/
def applyOp (w : b2WorldImpl) : RegistryOp → Option b2WorldImpl
  | .createBody e ffi => some (w.create_body e ffi)
  | .createFixture f b ffi => w.create_fixture f b ffi
  | .destroyFixture e => w.destroy_fixture_for_entity e
  | .destroyBody e => some (w.destroy_body_for_entity e)

/-- Run a sequence of registry operations, stopping at the first panic. -/
def applyOps (w : b2WorldImpl) : List RegistryOp → Option b2WorldImpl
  | [] => some w
  | op :: ops =>
      match applyOp w op with
      | none => none
      | some w1 => applyOps w1 ops

/-- A non-panicking run of registry operations in which every fixture
registration is for a fixture entity with no existing body association. -/
inductive FreshRun : b2WorldImpl → List RegistryOp → b2WorldImpl → Prop
  | nil : ∀ w, FreshRun w [] w
  | cons : ∀ w w1 w2 op ops,
      applyOp w op = some w1 →
      (∀ f b ffi, op = RegistryOp.createFixture f b ffi →
        mapLookup w.fixture_to_body f = none) →
      FreshRun w1 ops w2 →
      FreshRun w (op :: ops) w2

theorem RegistryInv_new (g : ℚ × ℚ) : RegistryInv (b2WorldImpl.new g) := by
  unfold RegistryInv b2WorldImpl.new
  constructor
  · intro f b
    simp [mapLookup]
  · intro f h
    simp [mapLookup] at h

theorem RegistryInv_create_body (w : b2WorldImpl) (e : Entity) (ffi : ℕ)
    (hinv : RegistryInv w) : RegistryInv (w.create_body e ffi) :=
  hinv

theorem RegistryInv_create_fixture (w w' : b2WorldImpl) (f b : Entity) (ffi : ℕ)
    (hinv : RegistryInv w) (hfresh : mapLookup w.fixture_to_body f = none)
    (hcr : w.create_fixture f b ffi = some w') : RegistryInv w' := by
  unfold b2WorldImpl.create_fixture at hcr
  cases hlk : mapLookup w.body_ptrs b with
  | none => rw [hlk] at hcr; cases hcr
  | some ptr =>
      rw [hlk] at hcr
      have hw : some ({ w with
          fixture_ptrs := mapInsert w.fixture_ptrs f ffi
          body_to_fixtures := mapInsert w.body_to_fixtures b
            (insert f ((mapLookup w.body_to_fixtures b).getD ∅))
          fixture_to_body := mapInsert w.fixture_to_body f b } : b2WorldImpl)
          = some w' := hcr
      injection hw with hw
      subst hw
      obtain ⟨h1, h2⟩ := hinv
      constructor
      · intro g c
        show mapLookup (mapInsert w.fixture_to_body f b) g = some c ↔
          g ∈ (mapLookup (mapInsert w.body_to_fixtures b
            (insert f ((mapLookup w.body_to_fixtures b).getD ∅))) c).getD ∅
        by_cases hg : f = g
        · subst hg
          rw [mapLookup_mapInsert_self]
          by_cases hc : b = c
          · subst hc
            rw [mapLookup_mapInsert_self]
            simp
          · rw [mapLookup_mapInsert_ne _ _ _ _ hc]
            constructor
            · intro he
              exact absurd (Option.some.inj he) hc
            · intro hmem
              have := (h1 f c).mpr hmem
              rw [hfresh] at this
              cases this
        · rw [mapLookup_mapInsert_ne _ _ _ _ hg]
          by_cases hc : b = c
          · subst hc
            rw [mapLookup_mapInsert_self]
            simp only [Option.getD_some]
            rw [Finset.mem_insert]
            constructor
            · intro he
              exact Or.inr ((h1 g b).mp he)
            · rintro (he | he)
              · exact absurd he.symm hg
              · exact (h1 g b).mpr he
          · rw [mapLookup_mapInsert_ne _ _ _ _ hc]
            exact h1 g c
      · intro g hg2
        show (mapLookup (mapInsert w.fixture_to_body f b) g).isSome = true
        by_cases hg : f = g
        · subst hg
          rw [mapLookup_mapInsert_self]
          rfl
        · rw [mapLookup_mapInsert_ne _ _ _ _ hg]
          apply h2
          have hg2' : (mapLookup (mapInsert w.fixture_ptrs f ffi) g).isSome = true := hg2
          rwa [mapLookup_mapInsert_ne _ _ _ _ hg] at hg2'

theorem RegistryInv_destroy_fixture (w w' : b2WorldImpl) (e : Entity)
    (hinv : RegistryInv w) (hd : w.destroy_fixture_for_entity e = some w') :
    RegistryInv w' := by
  unfold b2WorldImpl.destroy_fixture_for_entity at hd
  obtain ⟨h1, h2⟩ := hinv
  split at hd
  · -- no fixture handle: the registry is unchanged
    injection hd with hd
    subst hd
    exact ⟨h1, h2⟩
  · split at hd
    · -- fixture handle present but no body association: only the handle is removed
      rename_i hfp hfb
      injection hd with hd
      subst hd
      refine ⟨h1, ?_⟩
      intro g hg
      have hg' : (mapLookup (mapRemove w.fixture_ptrs e) g).isSome = true := hg
      by_cases hge : e = g
      · subst hge
        rw [mapLookup_mapRemove_self] at hg'
        cases hg'
      · rw [mapLookup_mapRemove_ne _ _ _ hge] at hg'
        exact h2 g hg'
    · split at hd
      · cases hd
      · split at hd
        · cases hd
        · rename_i a1 fptr hfp a2 be hfb a3 s hbf a4 ptr hbp
          injection hd with hd
          subst hd
          constructor
          · intro g c
            show mapLookup (mapRemove w.fixture_to_body e) g = some c ↔
              g ∈ (mapLookup (mapInsert w.body_to_fixtures be (s.erase e)) c).getD ∅
            by_cases hge : e = g
            · subst hge
              rw [mapLookup_mapRemove_self]
              constructor
              · intro he
                cases he
              · intro hmem
                by_cases hc : be = c
                · subst hc
                  rw [mapLookup_mapInsert_self] at hmem
                  simp only [Option.getD_some] at hmem
                  exact absurd rfl (Finset.mem_erase.mp hmem).1
                · rw [mapLookup_mapInsert_ne _ _ _ _ hc] at hmem
                  have := (h1 e c).mpr hmem
                  rw [hfb] at this
                  exact absurd (Option.some.inj this) hc
            · rw [mapLookup_mapRemove_ne _ _ _ hge]
              by_cases hc : be = c
              · subst hc
                rw [mapLookup_mapInsert_self]
                simp only [Option.getD_some]
                rw [Finset.mem_erase]
                constructor
                · intro he
                  refine ⟨fun hgeq => hge hgeq.symm, ?_⟩
                  have := (h1 g be).mp he
                  rw [hbf] at this
                  simpa using this
                · rintro ⟨-, hgs⟩
                  apply (h1 g be).mpr
                  rw [hbf]
                  simpa using hgs
              · rw [mapLookup_mapInsert_ne _ _ _ _ hc]
                exact h1 g c
          · intro g hg
            show (mapLookup (mapRemove w.fixture_to_body e) g).isSome = true
            have hg' : (mapLookup (mapRemove w.fixture_ptrs e) g).isSome = true := hg
            by_cases hge : e = g
            · subst hge
              rw [mapLookup_mapRemove_self] at hg'
              cases hg'
            · rw [mapLookup_mapRemove_ne _ _ _ hge] at hg'
              rw [mapLookup_mapRemove_ne _ _ _ hge]
              exact h2 g hg'

theorem RegistryInv_destroy_body (w : b2WorldImpl) (e : Entity)
    (hinv : RegistryInv w) : RegistryInv (w.destroy_body_for_entity e) := by
  unfold b2WorldImpl.destroy_body_for_entity
  obtain ⟨h1, h2⟩ := hinv
  cases hbp : mapLookup w.body_ptrs e with
  | none => exact ⟨h1, h2⟩
  | some ptr =>
      constructor
      · intro g c
        show mapLookup (w.fixture_to_body.filter
            (fun p => decide (p.1 ∉ (mapLookup w.body_to_fixtures e).getD ∅))) g
              = some c ↔
          g ∈ (mapLookup (mapRemove w.body_to_fixtures e) c).getD ∅
        rw [mapLookup_filterKey
          (fun a => decide (a ∉ (mapLookup w.body_to_fixtures e).getD ∅))]
        by_cases hgS : g ∈ (mapLookup w.body_to_fixtures e).getD ∅
        · rw [if_neg (by simpa using hgS)]
          constructor
          · intro he
            cases he
          · intro hmem
            by_cases hc : e = c
            · subst hc
              rw [mapLookup_mapRemove_self] at hmem
              simp at hmem
            · rw [mapLookup_mapRemove_ne _ _ _ hc] at hmem
              have hgc := (h1 g c).mpr hmem
              have hge := (h1 g e).mpr hgS
              rw [hgc] at hge
              exact absurd (Option.some.inj hge).symm hc
        · rw [if_pos (by simpa using hgS)]
          by_cases hc : e = c
          · subst hc
            rw [mapLookup_mapRemove_self]
            simp only [Option.getD_none]
            constructor
            · intro he
              exact absurd ((h1 g e).mp he) hgS
            · intro he
              exact absurd he (Finset.not_mem_empty g)
          · rw [mapLookup_mapRemove_ne _ _ _ hc]
            exact h1 g c
      · intro g hg
        have hg' : (mapLookup (w.fixture_ptrs.filter
            (fun p => decide (p.1 ∉ (mapLookup w.body_to_fixtures e).getD ∅))) g).isSome
              = true := hg
        rw [mapLookup_filterKey
          (fun a => decide (a ∉ (mapLookup w.body_to_fixtures e).getD ∅))] at hg'
        show (mapLookup (w.fixture_to_body.filter
            (fun p => decide (p.1 ∉ (mapLookup w.body_to_fixtures e).getD ∅))) g).isSome
              = true
        rw [mapLookup_filterKey
          (fun a => decide (a ∉ (mapLookup w.body_to_fixtures e).getD ∅))]
        by_cases hgS : g ∈ (mapLookup w.body_to_fixtures e).getD ∅
        · rw [if_neg (by simpa using hgS)] at hg'
          cases hg'
        · rw [if_pos (by simpa using hgS)] at hg'
          rw [if_pos (by simpa using hgS)]
          exact h2 g hg'

/-- C9 (amended): after every non-panicking sequence of fixture registrations,
fixture unregistrations, body registrations and body destructions in which
each fixture registration is for a fixture entity with no existing
fixture-to-body association, the adjacency structures agree: `f ↦ b` is in
`fixture_to_body` iff `f` is in the `body_to_fixtures` set of `b`, and every
registered fixture handle has a `fixture_to_body` entry. -/
theorem c9_registry_adjacency (w w' : b2WorldImpl) (ops : List RegistryOp)
    (hinv : RegistryInv w) (hrun : FreshRun w ops w') : RegistryInv w' := by
  revert hinv
  induction hrun with
  | nil w => exact fun h => h
  | cons w w1 w2 op ops happ hfresh htail ih =>
      intro hinv
      apply ih
      cases op with
      | createBody e ffi =>
          simp only [applyOp] at happ
          injection happ with happ
          subst happ
          exact RegistryInv_create_body w e ffi hinv
      | createFixture f b ffi =>
          simp only [applyOp] at happ
          exact RegistryInv_create_fixture w w1 f b ffi hinv (hfresh f b ffi rfl) happ
      | destroyFixture e =>
          simp only [applyOp] at happ
          exact RegistryInv_destroy_fixture w w1 e hinv happ
      | destroyBody e =>
          simp only [applyOp] at happ
          injection happ with happ
          subst happ
          exact RegistryInv_destroy_body w e hinv

/-- The registry state reached by registering bodies 1 and 2 and then
registering fixture entity 5 twice — once to each body. -/
def c9BadWorld : b2WorldImpl :=
  { body_ptrs := [(2, 20), (1, 10)]
    fixture_ptrs := [(5, 101)]
    joint_ptrs := []
    body_to_fixtures := [(2, insert 5 ∅), (1, insert 5 ∅)]
    fixture_to_body := [(5, 2)]
    gravity := (0, 0) }

/-- C9 (counterexample): registering the same fixture entity for two different
bodies (which the registry accepts without complaint, cf. C1) leaves the
adjacency structures disagreeing: fixture 5 maps to body 2 in
`fixture_to_body`, yet still sits in body 1's `body_to_fixtures` set. -/
theorem c9_duplicate_fixture_breaks_adjacency :
    applyOps (b2WorldImpl.new (0, 0))
        [RegistryOp.createBody 1 10, RegistryOp.createBody 2 20,
         RegistryOp.createFixture 5 1 100, RegistryOp.createFixture 5 2 101] =
      some c9BadWorld ∧
    mapLookup c9BadWorld.fixture_to_body 5 = some 2 ∧
    5 ∈ (mapLookup c9BadWorld.body_to_fixtures 1).getD ∅ ∧
    ¬ RegistryInv c9BadWorld := by
  refine ⟨by decide, by decide, by decide, ?_⟩
  rintro ⟨h1, -⟩
  have h := (h1 5 1).mpr (by decide)
  exact absurd h (by decide)

/-- The registry state reached by registering body 1 and then fixture 5. -/
def c9GoodWorld : b2WorldImpl :=
  { body_ptrs := [(1, 10)]
    fixture_ptrs := [(5, 100)]
    joint_ptrs := []
    body_to_fixtures := [(1, insert 5 ∅)]
    fixture_to_body := [(5, 1)]
    gravity := (0, 0) }

/-- The intermediate registry state of the C9 witness run: body 1 registered,
no fixtures yet. -/
def c9MidWorld : b2WorldImpl :=
  { body_ptrs := [(1, 10)]
    fixture_ptrs := []
    joint_ptrs := []
    body_to_fixtures := []
    fixture_to_body := []
    gravity := (0, 0) }

/-- C9 witness: `c9_registry_adjacency` applied to the concrete fresh run
registering body 1 and fixture 5. -/
theorem c9_registry_adjacency_witness : RegistryInv c9GoodWorld := by
  refine c9_registry_adjacency (b2WorldImpl.new (0, 0)) c9GoodWorld
    [RegistryOp.createBody 1 10, RegistryOp.createFixture 5 1 100]
    (RegistryInv_new (0, 0)) ?_
  refine FreshRun.cons _ c9MidWorld _ _ _ (by decide)
    (fun f b ffi heq => by cases heq) ?_
  refine FreshRun.cons _ c9GoodWorld _ _ _ (by decide)
    (fun f b ffi heq => by cases heq; rfl) ?_
  exact FreshRun.nil c9GoodWorld

/-! ### Claim C2: contacts that begin and end within one step -/

/-- `b2Contact`: a currently-touching fixture pair (spec §3; the defining
module is not among the provided sources). -/
structure b2Contact : Type where
  fixture_a : Entity
  body_a : Entity
  fixture_b : Entity
  body_b : Entity
deriving DecidableEq

/-- Modelled from the spec: the contact listener (`b2ContactListener`, whose
defining module is missing from the provided sources; spec §4.3) maintains
across one step the map of fixture-pairs currently touching, the pairs that
began touching this step, and the pairs that stopped touching this step, all
fed by the native engine's begin/end contact notifications. -/
structure b2ContactListener : Type where
  fixture_contacts : List ((Entity × Entity) × b2Contact)
  begun_fixture_contacts : List (Entity × Entity)
  ended_fixture_contacts : List ((Entity × Entity) × b2Contact)
deriving DecidableEq

/-- Modelled from the spec: the native `BeginContact` notification records the
pair as currently touching and as begun this step. -/
def b2ContactListener.begin_contact (l : b2ContactListener)
    (key : Entity × Entity) (contact : b2Contact) : b2ContactListener :=
  { fixture_contacts := mapInsert l.fixture_contacts key contact
    begun_fixture_contacts := l.begun_fixture_contacts ++ [key]
    ended_fixture_contacts := l.ended_fixture_contacts }

/-- Modelled from the spec: the native `EndContact` notification removes the
pair from the currently-touching map and records it as ended this step. -/
def b2ContactListener.end_contact (l : b2ContactListener)
    (key : Entity × Entity) (contact : b2Contact) : b2ContactListener :=
  { fixture_contacts := mapRemove l.fixture_contacts key
    begun_fixture_contacts := l.begun_fixture_contacts
    ended_fixture_contacts := mapInsert l.ended_fixture_contacts key contact }

/-- Modelled from the spec: `clear_contact_changes` clears the per-step
begin/end working sets, keeping the currently-touching map. -/
def b2ContactListener.clear_contact_changes (l : b2ContactListener) :
    b2ContactListener :=
  { l with begun_fixture_contacts := [], ended_fixture_contacts := [] }

/-- `send_contact_events` (src/plugins.rs:503): each begun pair still in the
currently-touching map — or present in the ended map, meaning it began and
ended within the same step — emits a begin event; every ended pair emits an
end event; then the per-step working sets are cleared.  Returns (begin events,
end events, listener after clearing). -/
def send_contact_events (l : b2ContactListener) :
    List b2Contact × List b2Contact × b2ContactListener :=
  let begin_events := l.begun_fixture_contacts.filterMap
    (fun key => (mapLookup l.fixture_contacts key).or
      (mapLookup l.ended_fixture_contacts key))
  let end_events := l.ended_fixture_contacts.map (fun p => p.2)
  (begin_events, end_events, l.clear_contact_changes)

/-- C2: a contact pair that begins and ends within a single step (beginning
from a step-start listener state in which the pair is not currently touching)
yields exactly one begin event and exactly one end event after the step, and
the pair is not in the next step's currently-touching map. -/
theorem c2_begin_end_same_step (fc : List ((Entity × Entity) × b2Contact))
    (key : Entity × Entity) (c : b2Contact)
    (hkey : mapLookup fc key = none) :
    (send_contact_events
        ((b2ContactListener.mk fc [] []).begin_contact key c |>.end_contact key c)).1
      = [c] ∧
    (send_contact_events
        ((b2ContactListener.mk fc [] []).begin_contact key c |>.end_contact key c)).2.1
      = [c] ∧
    mapLookup (send_contact_events
        ((b2ContactListener.mk fc [] []).begin_contact key c
          |>.end_contact key c)).2.2.fixture_contacts key = none := by
  have hfc : mapLookup (mapRemove (mapInsert fc key c) key) key = none :=
    mapLookup_mapRemove_self _ _
  have hend : mapLookup
      (mapInsert ([] : List ((Entity × Entity) × b2Contact)) key c) key = some c :=
    mapLookup_mapInsert_self _ _ _
  refine ⟨?_, ?_, ?_⟩
  · show List.filterMap
      (fun k => (mapLookup (mapRemove (mapInsert fc key c) key) k).or
        (mapLookup (mapInsert ([] : List ((Entity × Entity) × b2Contact)) key c) k))
      ([] ++ [key]) = [c]
    simp [List.filterMap_cons, hfc, hend]
  · show List.map (fun p => p.2)
      (mapInsert ([] : List ((Entity × Entity) × b2Contact)) key c) = [c]
    simp [mapInsert]
  · exact hfc

/-- C2 witness: the same-step begin/end scenario on an initially empty
currently-touching map, for fixture pair (1, 2). -/
theorem c2_begin_end_same_step_witness :
    mapLookup ([] : List ((Entity × Entity) × b2Contact)) (1, 2) = none ∧
    ((send_contact_events
        ((b2ContactListener.mk [] [] []).begin_contact (1, 2) (b2Contact.mk 1 10 2 20)
          |>.end_contact (1, 2) (b2Contact.mk 1 10 2 20))).1
      = [b2Contact.mk 1 10 2 20] ∧
    (send_contact_events
        ((b2ContactListener.mk [] [] []).begin_contact (1, 2) (b2Contact.mk 1 10 2 20)
          |>.end_contact (1, 2) (b2Contact.mk 1 10 2 20))).2.1
      = [b2Contact.mk 1 10 2 20] ∧
    mapLookup (send_contact_events
        ((b2ContactListener.mk [] [] []).begin_contact (1, 2) (b2Contact.mk 1 10 2 20)
          |>.end_contact (1, 2) (b2Contact.mk 1 10 2 20))).2.2.fixture_contacts (1, 2)
      = none) :=
  ⟨rfl, c2_begin_end_same_step [] (1, 2) (b2Contact.mk 1 10 2 20) rfl⟩

/-! ### Claim C6: joint usage-contract violations abort -/

/-- `b2DistanceJoint` component (src/dynamics/joints/distance_joint.rs). -/
structure b2DistanceJoint : Type where
  local_anchor_a : ℚ × ℚ
  local_anchor_b : ℚ × ℚ
  length : ℚ
  min_length : ℚ
  max_length : ℚ
  stiffness : ℚ
  damping : ℚ
deriving DecidableEq

/-- `b2DistanceJoint::create_ffi_joint` (src/dynamics/joints/distance_joint.rs:50):
unwraps both bodies' native pointers — `none` models the panic when either
body has no registered handle — then creates the native joint (opaque fresh
pointer `ffi_joint`) tagged with the `Distance` kind. -/
def b2DistanceJoint.create_ffi_joint (_self : b2DistanceJoint)
    (b2_world : b2WorldImpl) (body_a body_b : Entity)
    (_collide_connected : Bool) (ffi_joint : ℕ) : Option JointPtr :=
  match mapLookup b2_world.body_ptrs body_a with
  | none => none
  | some _ =>
      match mapLookup b2_world.body_ptrs body_b with
      | none => none
      | some _ => some (JointPtr.Distance ffi_joint)

/-- The native distance joint's mutable parameters, the targets of the
`SetLength` … `SetDamping` calls in `sync_to_world`. -/
structure DistanceJointNative : Type where
  length : ℚ
  min_length : ℚ
  max_length : ℚ
  stiffness : ℚ
  damping : ℚ
deriving DecidableEq

/-- `b2DistanceJoint::sync_to_world` (src/dynamics/joints/distance_joint.rs:82):
panics — modelled as `none` — unless the handle is tagged `Distance`;
otherwise pushes the component's parameters into the native joint. -/
def b2DistanceJoint.sync_to_world (self : b2DistanceJoint) (joint_ptr : JointPtr)
    (_native : DistanceJointNative) : Option DistanceJointNative :=
  match joint_ptr with
  | JointPtr.Distance _ =>
      some { length := self.length
             min_length := self.min_length
             max_length := self.max_length
             stiffness := self.stiffness
             damping := self.damping }
  | _ => none

/-- C6: creating a distance joint when either referenced body has no
registered native handle aborts (the source's `unwrap` panic), and pushing a
distance joint's local state to a native handle tagged with a different joint
kind aborts (the source's explicit panic); neither contract violation is
silently ignored. -/
theorem c6_joint_contract_violations_abort :
    (∀ (j : b2DistanceJoint) (w : b2WorldImpl) (a b : Entity) (cc : Bool) (ffi : ℕ),
        mapLookup w.body_ptrs a = none ∨ mapLookup w.body_ptrs b = none →
        j.create_ffi_joint w a b cc ffi = none) ∧
    (∀ (j : b2DistanceJoint) (p : JointPtr) (n : DistanceJointNative),
        (∀ q, p ≠ JointPtr.Distance q) → j.sync_to_world p n = none) := by
  constructor
  · intro j w a b cc ffi h
    unfold b2DistanceJoint.create_ffi_joint
    rcases h with ha | hb
    · rw [ha]
    · rw [hb]
      cases mapLookup w.body_ptrs a <;> rfl
  · intro j p n h
    cases p with
    | Distance q => exact absurd rfl (h q)
    | Revolute q => rfl
    | Prismatic q => rfl
    | Weld q => rfl
    | Motor q => rfl

/-- C6 witness: both violations at concrete inputs — a joint between bodies
with no handles in a fresh world, and a sync against a motor-tagged handle. -/
theorem c6_joint_contract_violations_abort_witness :
    (mapLookup (b2WorldImpl.new (0, 0)).body_ptrs 1 = none ∨
      mapLookup (b2WorldImpl.new (0, 0)).body_ptrs 2 = none) ∧
    (b2DistanceJoint.mk (0, 0) (0, 0) 1 1 2 0 0).create_ffi_joint
      (b2WorldImpl.new (0, 0)) 1 2 false 77 = none ∧
    (∀ q, JointPtr.Motor 3 ≠ JointPtr.Distance q) ∧
    (b2DistanceJoint.mk (0, 0) (0, 0) 1 1 2 0 0).sync_to_world (JointPtr.Motor 3)
      (DistanceJointNative.mk 0 0 0 0 0) = none :=
  ⟨Or.inl rfl,
   c6_joint_contract_violations_abort.1 _ (b2WorldImpl.new (0, 0)) 1 2 false 77
     (Or.inl rfl),
   fun q h => JointPtr.noConfusion h,
   c6_joint_contract_violations_abort.2 _ (JointPtr.Motor 3)
     (DistanceJointNative.mk 0 0 0 0 0) (fun q h => JointPtr.noConfusion h)⟩

/-! ### Claim C10: the transform update never exposes extrapolation -/

/-- `b2BodyType` (src/dynamics/body.rs). -/
inductive b2BodyType : Type
  | Static
  | Kinematic
  | Dynamic
deriving DecidableEq

/-- `b2Body` component (src/dynamics/body.rs), over `ℚ`. -/
structure b2Body : Type where
  body_type : b2BodyType
  position : ℚ × ℚ
  angle : ℚ
  linear_velocity : ℚ × ℚ
  angular_velocity : ℚ
  awake : Bool
  allow_sleep : Bool
  fixed_rotation : Bool
  mass : ℚ
deriving DecidableEq

/-- `Quat::from_rotation_z`, kept opaque: the only rotations built here are
rotations about the Z axis by a given angle. -/
inductive Quat : Type
  | from_rotation_z (angle : ℚ)
deriving DecidableEq

/-- Bevy's `Transform`, restricted to the fields `update_transforms` writes. -/
structure Transform : Type where
  translation : ℚ × ℚ × ℚ
  rotation : Quat
deriving DecidableEq

/-- Component-wise vector sum (`Vec2 + Vec2`). -/
def vadd (a b : ℚ × ℚ) : ℚ × ℚ := (a.1 + b.1, a.2 + b.2)

/-- Scalar multiple (`Vec2 * f32`). -/
def vscale (v : ℚ × ℚ) (t : ℚ) : ℚ × ℚ := (v.1 * t, v.2 * t)

/-- `Vec2::extend`: append a z component. -/
def vextend (v : ℚ × ℚ) (z : ℚ) : ℚ × ℚ × ℚ := (v.1, v.2, z)

/-- The body of the `update_transforms` loop (src/plugins.rs:665) for one
body: computes the extrapolated pose from the physics-time accumulator, writes
it to the transform, then overwrites both fields with the body's last
synchronized pose. -/
def update_transforms (body : b2Body) (extrapolation_time : ℚ)
    (transform : Transform) : Transform :=
  let extrapolated_position :=
    vadd body.position (vscale body.linear_velocity extrapolation_time)
  let transform1 := { transform with translation := vextend extrapolated_position 0 }
  let extrapolated_rotation := body.angle + body.angular_velocity * extrapolation_time
  let transform2 := { transform1 with rotation := Quat.from_rotation_z extrapolated_rotation }
  let transform3 := { transform2 with translation := vextend body.position 0 }
  { transform3 with rotation := Quat.from_rotation_z body.angle }

/-- C10: the transform update writes exactly the last synchronized physics
pose — translation is the body's position extended with z = 0 and rotation is
the rotation about Z by the body's angle — for every extrapolation time, so
the extrapolated pose computed earlier in the function is never observable. -/
theorem c10_transform_is_exact_pose :
    ∀ (body : b2Body) (extrapolation_time : ℚ) (transform : Transform),
      update_transforms body extrapolation_time transform =
        { translation := vextend body.position 0
          rotation := Quat.from_rotation_z body.angle } :=
  fun _ _ _ => rfl

/-! ### Claims C5 and C7: ray-cast policies and filtering
(src/dynamics/ray_cast.rs) -/

/-- A geometric ray hit that the native engine may report: entities decoded
from the fixture/body user data, hit point, normal, fraction along the ray,
and the fixture's collision-filter category bits. -/
structure Candidate : Type where
  body_entity : Entity
  fixture_entity : Entity
  point : ℚ × ℚ
  normal : ℚ × ℚ
  fraction : ℚ
  categoryBits : ℕ
deriving DecidableEq

/-- `b2RayCastHit` (src/dynamics/ray_cast.rs:211). -/
structure b2RayCastHit : Type where
  body_entity : Entity
  fixture_entity : Entity
  point : ℚ × ℚ
  normal : ℚ × ℚ
deriving DecidableEq

/-- The hit record a policy callback builds from a reported fixture. -/
def Candidate.toHit (c : Candidate) : b2RayCastHit :=
  { body_entity := c.body_entity
    fixture_entity := c.fixture_entity
    point := c.point
    normal := c.normal }

/-- `b2RayCastFilter` (src/dynamics/ray_cast.rs:220). -/
structure b2RayCastFilter : Type where
  excluded_bodies : Option (Finset Entity)
  allowed_categories : Option ℕ
deriving DecidableEq

/-- `b2RayCastFilter::default`: no exclusions, no category restriction. -/
def b2RayCastFilter.standard : b2RayCastFilter :=
  { excluded_bodies := none, allowed_categories := none }

/-- `b2RayCastFilter::should_use` (src/dynamics/ray_cast.rs:267): false when
the body is excluded or when the allowed-category mask does not intersect the
fixture's category bits. -/
def b2RayCastFilter.should_use (self : b2RayCastFilter) (body_entity : Entity)
    (categoryBits : ℕ) : Bool :=
  let excluded_hit : Bool :=
    match self.excluded_bodies with
    | some excluded => decide (body_entity ∈ excluded)
    | none => false
  if excluded_hit then false
  else
    let category_blocked : Bool :=
      match self.allowed_categories with
      | some allowed => decide (Nat.land allowed categoryBits = 0)
      | none => false
    if category_blocked then false else true

/-- Whether the filter lets a candidate through to the policy callback. -/
def passes (filter : b2RayCastFilter) (c : Candidate) : Bool :=
  filter.should_use c.body_entity c.categoryBits

/-- `b2RayCastClosest::report_fixture` (src/dynamics/ray_cast.rs:114):
unconditionally overwrites the stored result and returns the reported fraction
as continuation value. -/
def b2RayCastClosest.report_fixture (_result : Option b2RayCastHit)
    (c : Candidate) : Option b2RayCastHit × ℚ :=
  (some c.toHit, c.fraction)

/-- `b2RayCastAny::report_fixture` (src/dynamics/ray_cast.rs:151): stores the
hit and returns 0 (stop immediately). -/
def b2RayCastAny.report_fixture (_result : Option b2RayCastHit)
    (c : Candidate) : Option b2RayCastHit × ℚ :=
  (some c.toHit, 0)

/-- `b2RayCastAll::report_fixture` (src/dynamics/ray_cast.rs:188): appends the
hit and returns 1 (keep scanning unclipped). -/
def b2RayCastAll.report_fixture (result : List b2RayCastHit)
    (c : Candidate) : List b2RayCastHit × ℚ :=
  (result ++ [c.toHit], 1)

/-- `b2RayCast::report_fixture` (src/dynamics/ray_cast.rs:32): evaluates the
filter before the policy callback; a filtered-out fixture yields continuation
-1 and leaves the policy state untouched. -/
def b2RayCast.report_fixture {σ : Type} (filter : b2RayCastFilter)
    (callback : σ → Candidate → σ × ℚ) (s : σ) (c : Candidate) : σ × ℚ :=
  if filter.should_use c.body_entity c.categoryBits then callback s c
  else (s, -1)

/-- Modelled from the spec (§4.4): the narrowing driver of the native
`b2World::RayCast` visits candidate hits in arbitrary order keeping a current
search window `max_fraction` (initially 1); a hit beyond the window is not
reported; a reported hit's continuation value stops the scan when 0, becomes
the new window when positive, and leaves the window unchanged when negative
(-1, a filtered fixture). -/
def rayCastNarrowing {σ : Type} (report : σ → Candidate → σ × ℚ) :
    List Candidate → σ → ℚ → σ
  | [], s, _ => s
  | c :: rest, s, max_fraction =>
      if c.fraction ≤ max_fraction then
        let r := report s c
        if r.2 = 0 then r.1
        else if 0 < r.2 then rayCastNarrowing report rest r.1 r.2
        else rayCastNarrowing report rest r.1 max_fraction
      else rayCastNarrowing report rest s max_fraction

/-- Modelled from the spec: an engine that scans all fixtures exhaustively in
arbitrary order and ignores continuation values entirely. -/
def rayCastExhaustive {σ : Type} (report : σ → Candidate → σ × ℚ)
    (l : List Candidate) (s : σ) : σ :=
  l.foldl (fun s c => (report s c).1) s

theorem rayCastNarrowing_cons {σ : Type} (report : σ → Candidate → σ × ℚ)
    (c : Candidate) (rest : List Candidate) (s : σ) (max_fraction : ℚ) :
    rayCastNarrowing report (c :: rest) s max_fraction =
      if c.fraction ≤ max_fraction then
        (if (report s c).2 = 0 then (report s c).1
         else if 0 < (report s c).2 then
           rayCastNarrowing report rest (report s c).1 (report s c).2
         else rayCastNarrowing report rest (report s c).1 max_fraction)
      else rayCastNarrowing report rest s max_fraction := rfl

theorem report_fixture_passes {σ : Type} (filter : b2RayCastFilter)
    (callback : σ → Candidate → σ × ℚ) (s : σ) (c : Candidate)
    (h : passes filter c = true) :
    b2RayCast.report_fixture filter callback s c = callback s c := by
  unfold b2RayCast.report_fixture
  unfold passes at h
  rw [if_pos h]

theorem report_fixture_filtered {σ : Type} (filter : b2RayCastFilter)
    (callback : σ → Candidate → σ × ℚ) (s : σ) (c : Candidate)
    (h : passes filter c = false) :
    b2RayCast.report_fixture filter callback s c = (s, -1) := by
  unfold b2RayCast.report_fixture
  unfold passes at h
  rw [if_neg (by simp [h])]

/-- Under the narrowing engine, the Closest policy either reports nothing (all
passing candidates lie beyond the window) or returns the passing in-window
candidate of smallest fraction. -/
theorem closest_loop_min (filter : b2RayCastFilter) (l : List Candidate) :
    ∀ (s : Option b2RayCastHit) (maxF : ℚ),
    (∀ c ∈ l, 0 ≤ c.fraction) →
    ((∀ c ∈ l, passes filter c = true → maxF < c.fraction) ∧
      rayCastNarrowing (b2RayCast.report_fixture filter b2RayCastClosest.report_fixture)
        l s maxF = s) ∨
    (∃ c ∈ l, passes filter c = true ∧ c.fraction ≤ maxF ∧
      (∀ c' ∈ l, passes filter c' = true → c'.fraction ≤ maxF →
        c.fraction ≤ c'.fraction) ∧
      rayCastNarrowing (b2RayCast.report_fixture filter b2RayCastClosest.report_fixture)
        l s maxF = some c.toHit) := by
  induction l with
  | nil =>
      intro s maxF _
      exact Or.inl ⟨by simp, rfl⟩
  | cons c rest ih =>
      intro s maxF hf
      have hfrest : ∀ c' ∈ rest, 0 ≤ c'.fraction :=
        fun c' hc' => hf c' (List.mem_cons_of_mem c hc')
      rw [rayCastNarrowing_cons]
      by_cases h1 : c.fraction ≤ maxF
      · rw [if_pos h1]
        by_cases h2 : passes filter c = true
        · have hrep := report_fixture_passes filter b2RayCastClosest.report_fixture s c h2
          have hrep1 : (b2RayCast.report_fixture filter
              b2RayCastClosest.report_fixture s c).1 = some c.toHit := by rw [hrep]; rfl
          have hrep2 : (b2RayCast.report_fixture filter
              b2RayCastClosest.report_fixture s c).2 = c.fraction := by rw [hrep]; rfl
          rw [hrep1, hrep2]
          by_cases h3 : c.fraction = 0
          · rw [if_pos h3]
            refine Or.inr ⟨c, List.mem_cons_self c rest, h2, h1, ?_, rfl⟩
            intro c' hc' _ _
            rw [h3]
            exact hf c' hc'
          · have h0 : 0 < c.fraction :=
              lt_of_le_of_ne (hf c (List.mem_cons_self c rest)) (Ne.symm h3)
            rw [if_neg h3, if_pos h0]
            rcases ih (some c.toHit) c.fraction hfrest with
              ⟨hall, heq⟩ | ⟨c0, hmem0, hp0, hle0, hmin0, heq0⟩
            · refine Or.inr ⟨c, List.mem_cons_self c rest, h2, h1, ?_, heq⟩
              intro c' hc' hp' _
              rcases List.mem_cons.mp hc' with ceq | hc'rest
              · rw [ceq]
              · exact le_of_lt (hall c' hc'rest hp')
            · refine Or.inr ⟨c0, List.mem_cons_of_mem c hmem0, hp0,
                le_trans hle0 h1, ?_, heq0⟩
              intro c' hc' hp' _
              rcases List.mem_cons.mp hc' with ceq | hc'rest
              · rw [ceq]
                exact hle0
              · by_cases hcf : c'.fraction ≤ c.fraction
                · exact hmin0 c' hc'rest hp' hcf
                · exact le_trans hle0 (le_of_lt (lt_of_not_le hcf))
        · have h2' : passes filter c = false := by
            cases hb : passes filter c
            · rfl
            · exact absurd hb h2
          have hrep := report_fixture_filtered filter
            b2RayCastClosest.report_fixture s c h2'
          have hrep1 : (b2RayCast.report_fixture filter
              b2RayCastClosest.report_fixture s c).1 = s := by rw [hrep]
          have hrep2 : (b2RayCast.report_fixture filter
              b2RayCastClosest.report_fixture s c).2 = -1 := by rw [hrep]
          rw [hrep1, hrep2, if_neg (by norm_num), if_neg (by norm_num)]
          rcases ih s maxF hfrest with
            ⟨hall, heq⟩ | ⟨c0, hmem0, hp0, hle0, hmin0, heq0⟩
          · refine Or.inl ⟨?_, heq⟩
            intro c' hc' hp'
            rcases List.mem_cons.mp hc' with ceq | hc'rest
            · rw [ceq] at hp'
              rw [hp'] at h2'
              cases h2'
            · exact hall c' hc'rest hp'
          · refine Or.inr ⟨c0, List.mem_cons_of_mem c hmem0, hp0, hle0, ?_, heq0⟩
            intro c' hc' hp' hle'
            rcases List.mem_cons.mp hc' with ceq | hc'rest
            · rw [ceq] at hp'
              rw [hp'] at h2'
              cases h2'
            · exact hmin0 c' hc'rest hp' hle'
      · rw [if_neg h1]
        rcases ih s maxF hfrest with
          ⟨hall, heq⟩ | ⟨c0, hmem0, hp0, hle0, hmin0, heq0⟩
        · refine Or.inl ⟨?_, heq⟩
          intro c' hc' hp'
          rcases List.mem_cons.mp hc' with ceq | hc'rest
          · rw [ceq]
            exact lt_of_not_le h1
          · exact hall c' hc'rest hp'
        · refine Or.inr ⟨c0, List.mem_cons_of_mem c hmem0, hp0, hle0, ?_, heq0⟩
          intro c' hc' hp' hle'
          rcases List.mem_cons.mp hc' with ceq | hc'rest
          · rw [ceq] at hle'
            exact absurd hle' h1
          · exact hmin0 c' hc'rest hp' hle'

/-- C5 (amended): when the engine narrows its search window using the returned
continuation fraction (visiting every candidate, in arbitrary order), the
Closest policy returns a non-filtered hit of smallest fraction among all
non-filtered candidates, and the callback returns the reported fraction as its
continuation value.  (Under an engine that ignores continuation values the
callback instead keeps the last reported hit — see the counterexample.) -/
theorem c5_closest_returns_min_fraction (filter : b2RayCastFilter)
    (l : List Candidate)
    (hf : ∀ c ∈ l, 0 ≤ c.fraction ∧ c.fraction ≤ 1)
    (hne : ∃ c ∈ l, passes filter c = true) :
    (∃ c ∈ l, passes filter c = true ∧
      (∀ c' ∈ l, passes filter c' = true → c.fraction ≤ c'.fraction) ∧
      rayCastNarrowing (b2RayCast.report_fixture filter b2RayCastClosest.report_fixture)
        l none 1 = some c.toHit) ∧
    (∀ (s : Option b2RayCastHit) (c : Candidate),
      b2RayCastClosest.report_fixture s c = (some c.toHit, c.fraction)) := by
  refine ⟨?_, fun s c => rfl⟩
  rcases closest_loop_min filter l none 1 (fun c hc => (hf c hc).1) with
    ⟨hall, -⟩ | ⟨c0, hmem0, hp0, -, hmin0, heq0⟩
  · obtain ⟨c, hc, hp⟩ := hne
    exact absurd (hf c hc).2 (not_le_of_lt (hall c hc hp))
  · exact ⟨c0, hmem0, hp0,
      fun c' hc' hp' => hmin0 c' hc' hp' (hf c' hc').2, heq0⟩

/-- A candidate hit at fraction 3/10 on body 10, fixture 100, category 1. -/
def c5HitA : Candidate :=
  { body_entity := 10, fixture_entity := 100, point := (3, 0), normal := (-1, 0)
    fraction := 3 / 10, categoryBits := 1 }

/-- A candidate hit at fraction 7/10 on body 20, fixture 200, category 1. -/
def c5HitB : Candidate :=
  { body_entity := 20, fixture_entity := 200, point := (7, 0), normal := (-1, 0)
    fraction := 7 / 10, categoryBits := 1 }

/-- C5 (counterexample): under an engine that scans all fixtures exhaustively
in arbitrary order ignoring continuation values, the Closest policy keeps the
last reported hit: with unfiltered hits at fractions 3/10 and 7/10 reported in
that order, it returns the fixture at fraction 7/10, not the closest one. -/
theorem c5_exhaustive_scan_returns_last :
    rayCastExhaustive
        (b2RayCast.report_fixture b2RayCastFilter.standard
          b2RayCastClosest.report_fixture)
        [c5HitA, c5HitB] none = some c5HitB.toHit ∧
    c5HitA.fraction < c5HitB.fraction ∧
    some c5HitB.toHit ≠ some c5HitA.toHit := by
  refine ⟨rfl, by norm_num [c5HitA, c5HitB], by decide⟩

/-- C5 witness: `c5_closest_returns_min_fraction` on the two concrete hits
with the default (empty) filter. -/
theorem c5_fraction_bounds :
    ∀ c ∈ [c5HitA, c5HitB], 0 ≤ c.fraction ∧ c.fraction ≤ 1 := by
  intro c hc
  rcases List.mem_cons.mp hc with rfl | hc
  · norm_num [c5HitA]
  · rcases List.mem_cons.mp hc with rfl | hc
    · norm_num [c5HitB]
    · cases hc

theorem c5_some_hit_passes :
    ∃ c ∈ [c5HitA, c5HitB], passes b2RayCastFilter.standard c = true :=
  ⟨c5HitA, List.mem_cons_self c5HitA [c5HitB], rfl⟩

/-- C5 witness: `c5_closest_returns_min_fraction` on the two concrete hits
with the default (empty) filter. -/
theorem c5_closest_returns_min_fraction_witness :
    (∀ c ∈ [c5HitA, c5HitB], 0 ≤ c.fraction ∧ c.fraction ≤ 1) ∧
    (∃ c ∈ [c5HitA, c5HitB], passes b2RayCastFilter.standard c = true) ∧
    ((∃ c ∈ [c5HitA, c5HitB], passes b2RayCastFilter.standard c = true ∧
      (∀ c' ∈ [c5HitA, c5HitB], passes b2RayCastFilter.standard c' = true →
        c.fraction ≤ c'.fraction) ∧
      rayCastNarrowing (b2RayCast.report_fixture b2RayCastFilter.standard
        b2RayCastClosest.report_fixture) [c5HitA, c5HitB] none 1 = some c.toHit) ∧
    (∀ (s : Option b2RayCastHit) (c : Candidate),
      b2RayCastClosest.report_fixture s c = (some c.toHit, c.fraction))) :=
  ⟨c5_fraction_bounds, c5_some_hit_passes,
   c5_closest_returns_min_fraction b2RayCastFilter.standard [c5HitA, c5HitB]
     c5_fraction_bounds c5_some_hit_passes⟩

/-- Any state property preserved by passing reports is an invariant of the
narrowing loop: filtered candidates never touch the state. -/
theorem rayCastNarrowing_inv {σ : Type} (filter : b2RayCastFilter)
    (callback : σ → Candidate → σ × ℚ) (inv : σ → Prop) :
    ∀ (l : List Candidate) (s : σ) (maxF : ℚ),
      inv s →
      (∀ (s' : σ) (c : Candidate), inv s' → c ∈ l → passes filter c = true →
        inv (callback s' c).1) →
      inv (rayCastNarrowing (b2RayCast.report_fixture filter callback) l s maxF) := by
  intro l
  induction l with
  | nil => intro s maxF hs _; exact hs
  | cons c rest ih =>
      intro s maxF hs hstep
      have hsteprest : ∀ (s' : σ) (c' : Candidate), inv s' → c' ∈ rest →
          passes filter c' = true → inv (callback s' c').1 :=
        fun s' c' hs' hc' hp' => hstep s' c' hs' (List.mem_cons_of_mem c hc') hp'
      rw [rayCastNarrowing_cons]
      by_cases h1 : c.fraction ≤ maxF
      · rw [if_pos h1]
        have hinv1 : inv (b2RayCast.report_fixture filter callback s c).1 := by
          by_cases h2 : passes filter c = true
          · rw [report_fixture_passes filter callback s c h2]
            exact hstep s c hs (List.mem_cons_self c rest) h2
          · have h2' : passes filter c = false := by
              cases hb : passes filter c
              · rfl
              · exact absurd hb h2
            rw [report_fixture_filtered filter callback s c h2']
            exact hs
        by_cases hz : (b2RayCast.report_fixture filter callback s c).2 = 0
        · rw [if_pos hz]
          exact hinv1
        · rw [if_neg hz]
          by_cases hpos : 0 < (b2RayCast.report_fixture filter callback s c).2
          · rw [if_pos hpos]
            exact ih _ _ hinv1 hsteprest
          · rw [if_neg hpos]
            exact ih _ _ hinv1 hsteprest
      · rw [if_neg h1]
        exact ih s maxF hs hsteprest

/-- C7: a fixture whose body is excluded or whose category bits do not
intersect the allowed mask is never passed to the policy callback — the
wrapper returns continuation -1 with the policy state (hence the Closest best
hit) untouched — and consequently, under the narrowing engine, every hit in
the result of each of the three policies stems from a candidate that passed
the filter. -/
theorem c7_filter_excludes_fixtures :
    (∀ (σ : Type) (callback : σ → Candidate → σ × ℚ) (filter : b2RayCastFilter)
        (s : σ) (c : Candidate), passes filter c = false →
        b2RayCast.report_fixture filter callback s c = (s, -1)) ∧
    (∀ (filter : b2RayCastFilter) (l : List Candidate) (h : b2RayCastHit),
        rayCastNarrowing (b2RayCast.report_fixture filter
          b2RayCastClosest.report_fixture) l none 1 = some h →
        ∃ c ∈ l, passes filter c = true ∧ h = c.toHit) ∧
    (∀ (filter : b2RayCastFilter) (l : List Candidate) (h : b2RayCastHit),
        rayCastNarrowing (b2RayCast.report_fixture filter
          b2RayCastAny.report_fixture) l none 1 = some h →
        ∃ c ∈ l, passes filter c = true ∧ h = c.toHit) ∧
    (∀ (filter : b2RayCastFilter) (l : List Candidate) (h : b2RayCastHit),
        h ∈ rayCastNarrowing (b2RayCast.report_fixture filter
          b2RayCastAll.report_fixture) l ([] : List b2RayCastHit) 1 →
        ∃ c ∈ l, passes filter c = true ∧ h = c.toHit) := by
  refine ⟨fun σ callback filter s c hp =>
    report_fixture_filtered filter callback s c hp, ?_, ?_, ?_⟩
  · intro filter l h heq
    have hres := rayCastNarrowing_inv filter b2RayCastClosest.report_fixture
      (fun s => s = none ∨ ∃ c ∈ l, passes filter c = true ∧ s = some c.toHit)
      l none 1 (Or.inl rfl)
      (fun s' c _ hc hp => Or.inr ⟨c, hc, hp, rfl⟩)
    rcases hres with hnone | ⟨c, hc, hp, hsome⟩
    · rw [heq] at hnone
      cases hnone
    · rw [heq] at hsome
      exact ⟨c, hc, hp, Option.some.inj hsome⟩
  · intro filter l h heq
    have hres := rayCastNarrowing_inv filter b2RayCastAny.report_fixture
      (fun s => s = none ∨ ∃ c ∈ l, passes filter c = true ∧ s = some c.toHit)
      l none 1 (Or.inl rfl)
      (fun s' c _ hc hp => Or.inr ⟨c, hc, hp, rfl⟩)
    rcases hres with hnone | ⟨c, hc, hp, hsome⟩
    · rw [heq] at hnone
      cases hnone
    · rw [heq] at hsome
      exact ⟨c, hc, hp, Option.some.inj hsome⟩
  · intro filter l h hmem
    have hres := rayCastNarrowing_inv filter b2RayCastAll.report_fixture
      (fun s => ∀ h' ∈ s, ∃ c ∈ l, passes filter c = true ∧ h' = c.toHit)
      l [] 1 (by intro h' hh'; cases hh')
      (fun s' c hs' hc hp => by
        intro h' hh'
        rcases List.mem_append.mp hh' with hold | hnew
        · exact hs' h' hold
        · rcases List.mem_singleton.mp hnew with rfl
          exact ⟨c, hc, hp, rfl⟩)
    exact hres h hmem

/-- A filter excluding body 10. -/
def c7Filter : b2RayCastFilter :=
  { excluded_bodies := some (insert 10 ∅), allowed_categories := none }

theorem c7_hitA_filtered : passes c7Filter c5HitA = false := rfl

theorem c7_narrowing_eval :
    rayCastNarrowing (b2RayCast.report_fixture c7Filter
      b2RayCastClosest.report_fixture) [c5HitA, c5HitB] none 1 = some c5HitB.toHit := by
  have hB : passes c7Filter c5HitB = true := rfl
  rw [rayCastNarrowing_cons,
    if_pos (show c5HitA.fraction ≤ 1 by norm_num [c5HitA]),
    report_fixture_filtered c7Filter b2RayCastClosest.report_fixture none c5HitA
      c7_hitA_filtered,
    if_neg (show ¬(((none : Option b2RayCastHit), (-1 : ℚ)).2 = 0) by norm_num),
    if_neg (show ¬(0 < ((none : Option b2RayCastHit), (-1 : ℚ)).2) by norm_num)]
  rw [rayCastNarrowing_cons,
    if_pos (show c5HitB.fraction ≤ 1 by norm_num [c5HitB]),
    report_fixture_passes c7Filter b2RayCastClosest.report_fixture none c5HitB hB]
  rw [show b2RayCastClosest.report_fixture (none : Option b2RayCastHit) c5HitB
      = (some c5HitB.toHit, c5HitB.fraction) from rfl]
  rw [if_neg (show ¬((some c5HitB.toHit, c5HitB.fraction).2 = 0) by
        norm_num [c5HitB]),
    if_pos (show 0 < (some c5HitB.toHit, c5HitB.fraction).2 by norm_num [c5HitB])]
  rfl

/-- C7 witness: with body 10 excluded, hit A is rejected with continuation -1
and an untouched state, and the narrowing Closest result over both hits is
traced back to a passing candidate by the theorem. -/
theorem c7_filter_excludes_fixtures_witness :
    (passes c7Filter c5HitA = false ∧
      b2RayCast.report_fixture c7Filter b2RayCastClosest.report_fixture
        (none : Option b2RayCastHit) c5HitA = (none, -1)) ∧
    (rayCastNarrowing (b2RayCast.report_fixture c7Filter
        b2RayCastClosest.report_fixture) [c5HitA, c5HitB] none 1 = some c5HitB.toHit ∧
      ∃ c ∈ [c5HitA, c5HitB], passes c7Filter c = true ∧ c5HitB.toHit = c.toHit) :=
  ⟨⟨c7_hitA_filtered, c7_filter_excludes_fixtures.1 (Option b2RayCastHit)
      b2RayCastClosest.report_fixture c7Filter none c5HitA c7_hitA_filtered⟩,
   ⟨c7_narrowing_eval, c7_filter_excludes_fixtures.2.1 c7Filter [c5HitA, c5HitB]
      c5HitB.toHit c7_narrowing_eval⟩⟩

end BevyLiquidfun
